import Mathlib

/-!
# Verification of the `storage` handler (OutThereLabs/keto)

Shallow embedding of `src/storage/handler.go`: the generic Get/Delete/List/Upsert
request handlers, the List decision logic (filter vs. paginated backend fetch),
and the `ListByQuery` filter/windowing routine for roles and policies.

Go's `map[string][]string` query maps are embedded as association lists;
`m[k]` on a missing key yields the empty list (Go's nil slice), while key
presence (`_, ok := m[k]`) is tracked separately. Go's `panic` in
`ListByQuery` is embedded as `Except.error`.
-/

set_option autoImplicit false

namespace Storage

/-- A role record. Modelled from the spec: the `Role` type of the storage
package is not under `src/`; the spec gives `{ ID: string, Members: ordered
sequence of string }`. -/
structure Role where
  ID : String
  Members : List String
deriving DecidableEq, Repr

/-- A policy record. Modelled from the spec: the `Policy` type of the storage
package is not under `src/`; the spec gives `{ ID, Subjects, Resources,
Actions }`, each a (sequence of) string. -/
structure Policy where
  ID : String
  Subjects : List String
  Resources : List String
  Actions : List String
deriving DecidableEq, Repr

/-- `Roles` is a sequence of roles (Go: `type Roles []Role`). -/
abbrev Roles := List Role

/-- `Policies` is a sequence of policies (Go: `type Policies []Policy`). -/
abbrev Policies := List Policy

/-- A raw query map `map[string][]string`, embedded as an association list so
that key presence is observable. -/
abbrev Query := List (String × List String)

/-- Go `m[k]`: the value slice for key `k`, the empty list when absent. -/
def queryGet (m : Query) (k : String) : List String :=
  (m.lookup k).getD []

/-- Go `_, ok := m[k]`: whether key `k` is present in the query map. -/
def queryHas (m : Query) (k : String) : Bool :=
  (m.lookup k).isSome

/-- Modelled from the spec: `Role.withMembers` of the storage package is not
under `src/`. A role matches a member filter if its members intersect the
requested member set; an empty (absent) filter imposes no constraint; the
receiver may already be nil from an earlier stage of the chain, which
propagates. Returns the unchanged role on a match, nil otherwise. -/
def Role.withMembers (r : Option Role) (members : List String) : Option Role :=
  match r with
  | none => none
  | some role =>
    if members.isEmpty then some role
    else if role.Members.any (fun x => members.contains x) then some role
    else none

/-- Modelled from the spec: `Role.withIDs` of the storage package is not under
`src/`. A role matches an ID filter if its ID is in the requested ID set; an
empty filter imposes no constraint; nil receivers propagate. -/
def Role.withIDs (r : Option Role) (ids : List String) : Option Role :=
  match r with
  | none => none
  | some role =>
    if ids.isEmpty then some role
    else if ids.contains role.ID then some role
    else none

/-- Modelled from the spec: `Policy.withSubjects` of the storage package is not
under `src/`; matches if the policy's Subjects intersect the requested set;
empty filter passes; nil receivers propagate. -/
def Policy.withSubjects (p : Option Policy) (subjects : List String) : Option Policy :=
  match p with
  | none => none
  | some policy =>
    if subjects.isEmpty then some policy
    else if policy.Subjects.any (fun x => subjects.contains x) then some policy
    else none

/-- Modelled from the spec: `Policy.withResources` of the storage package is
not under `src/`; matches if the policy's Resources intersect the requested
set; empty filter passes; nil receivers propagate. -/
def Policy.withResources (p : Option Policy) (resources : List String) : Option Policy :=
  match p with
  | none => none
  | some policy =>
    if resources.isEmpty then some policy
    else if policy.Resources.any (fun x => resources.contains x) then some policy
    else none

/-- Modelled from the spec: `Policy.withActions` of the storage package is not
under `src/`; matches if the policy's Actions intersect the requested set;
empty filter passes; nil receivers propagate. -/
def Policy.withActions (p : Option Policy) (actions : List String) : Option Policy :=
  match p with
  | none => none
  | some policy =>
    if actions.isEmpty then some policy
    else if policy.Actions.any (fun x => actions.contains x) then some policy
    else none

/-- Modelled from the spec: `Policy.withIDs` of the storage package is not
under `src/`; matches if the policy's ID is in the requested ID set; empty
filter passes; nil receivers propagate. -/
def Policy.withIDs (p : Option Policy) (ids : List String) : Option Policy :=
  match p with
  | none => none
  | some policy =>
    if ids.isEmpty then some policy
    else if ids.contains policy.ID then some policy
    else none

/-- Modelled from the spec: the external pagination helper
`pagination.Index(limit, offset, length)` computes a valid `[start, end)`
slice window selecting the contiguous sub-sequence `[offset, offset+limit)`
of an ordered result, clamped to the collection size. -/
def pagination.Index (limit offset length : Nat) : Nat × Nat :=
  (min offset length, min (offset + limit) length)

/-- The windowing step of `ListByQuery`:
`start, end := pagination.Index(limit, offset, len(res)); res = res[start:end]`. -/
def window {α : Type} (res : List α) (limit offset : Nat) : List α :=
  let se := pagination.Index limit offset res.length
  (res.take se.2).drop se.1

/-- The per-record filter pass of `ListByQuery` for a `*Roles` value: the loop
`for _, role := range *val { filteredRole := role.withMembers(m["member"]).withIDs(m["id"]); if filteredRole != nil { res = append(res, *filteredRole) } }`. -/
def filterRoles (m : Query) (val : Roles) : Roles :=
  val.filterMap (fun role =>
    Role.withIDs (Role.withMembers (some role) (queryGet m "member")) (queryGet m "id"))

/-- The per-record filter pass of `ListByQuery` for a `*Policies` value: each
policy runs `withSubjects(m["subject"]).withResources(m["resource"]).withActions(m["action"]).withIDs(m["id"])`
and survivors are appended in order. -/
def filterPolicies (m : Query) (val : Policies) : Policies :=
  val.filterMap (fun policy =>
    Policy.withIDs
      (Policy.withActions
        (Policy.withResources
          (Policy.withSubjects (some policy) (queryGet m "subject"))
          (queryGet m "resource"))
        (queryGet m "action"))
      (queryGet m "id"))

/-- The dynamic variants a `ListRequest.Value` (an `interface{}`) can hold:
`*Roles`, `*Policies`, or anything else (the `default` branch). -/
inductive Value where
  | roles : Roles → Value
  | policies : Policies → Value
  | other : Value
deriving DecidableEq, Repr

/-- `ListByQuery(l, m, offset, limit)`: type-switch on the Value variant,
filter each record, window the filtered result with `pagination.Index`, and
store the new collection. The Go `default` branch panics; the panic is
embedded as `Except.error` with the panic message. -/
def ListByQuery (l : Value) (m : Query) (offset limit : Nat) : Except String Value :=
  match l with
  | .roles val =>
    let res := filterRoles m val
    Except.ok (Value.roles (window res limit offset))
  | .policies val =>
    let res := filterPolicies m val
    Except.ok (Value.policies (window res limit offset))
  | .other =>
    Except.error "storage:unable to cast list request to a known type!"

/-- Which backend fetch `Handler.List` performs: unpaginated `ListAll` or
paginated `List(limit, offset)`. -/
inductive FetchKind where
  | listAll
  | listPage
deriving DecidableEq, Repr

/-- Go's `strings.Split(s, "/")` on the character list of `s`: the maximal
run-free decomposition at `/` separators; splitting the empty string yields
one empty segment, like Go. -/
def splitOnSlash : List Char → List (List Char)
  | [] => [[]]
  | c :: rest =>
    let r := splitOnSlash rest
    if c = '/' then [] :: r
    else
      match r with
      | [] => [[c]]
      | h :: t => (c :: h) :: t

/-- `split[len(split)-1]` of `strings.Split(collection, "/")`, as a `String`. -/
def lastSegment (collection : String) : String :=
  String.mk ((splitOnSlash collection.toList).getLastD [])

/-- The branch structure of `Handler.List` deciding between `ListAll` and
`List(limit, offset)`: split the collection name on `/`, look at the last
segment, and set `isFilter` from the recognized filter-dimension query
parameters of that kind. -/
def listFetchKind (collection : String) (queryParams : Query) : FetchKind :=
  let collectionType := lastSegment collection
  if collectionType = "policies" then
    let isFilter := false
    let isFilter := if queryHas queryParams "action" then true else isFilter
    let isFilter := if queryHas queryParams "subject" then true else isFilter
    let isFilter := if queryHas queryParams "resource" then true else isFilter
    if isFilter then FetchKind.listAll else FetchKind.listPage
  else if collectionType = "roles" then
    let isFilter := if queryHas queryParams "member" then true else false
    if isFilter then FetchKind.listAll else FetchKind.listPage
  else FetchKind.listPage

/-- The spec's characterization of `isFilter`, written from the claim's words
(for comparison with `listFetchKind`): true iff at least one recognized
filter-dimension parameter is present for the collection's kind — `action`,
`subject` or `resource` for kind `policies`; `member` for kind `roles`; no
dimension for any other kind; a bare `id` never sets it. -/
def isFilterClaim (collection : String) (queryParams : Query) : Bool :=
  let kind := lastSegment collection
  if kind = "policies" then
    queryHas queryParams "action" || queryHas queryParams "subject" ||
      queryHas queryParams "resource"
  else if kind = "roles" then
    queryHas queryParams "member"
  else false

/-- The backend's two List primitives, as the values they deposit into the
request's `Value` on success: `listAll` is the whole collection, `list` the
backend-paginated page for given `(limit, offset)`. -/
structure Backend where
  listAll : Value
  list : Nat → Nat → Value

/-- The value `Handler.List` has in `l.Value` after the backend fetch, before
`l.Filter` runs. -/
def fetchedValue (collection : String) (q : Query) (limit offset : Nat)
    (b : Backend) : Value :=
  match listFetchKind collection q with
  | FetchKind.listAll => b.listAll
  | FetchKind.listPage => b.list limit offset

/-- The value written by `Handler.List` on a successful fetch:
`l.Filter(m, offset, limit).Value`, where `ListRequest.Filter` applies the
bound `FilterFunc` when non-nil and is the identity otherwise. -/
def handlerListValue (collection : String) (q : Query) (limit offset : Nat)
    (b : Backend) (filterFunc : Option (Value → Query → Nat → Nat → Except String Value)) :
    Except String Value :=
  let fetched := fetchedValue collection q limit offset b
  match filterFunc with
  | none => Except.ok fetched
  | some f => f fetched q offset limit

/-- A heap-explicit view of `ListByQuery`, for the aliasing behaviour of
`l.Value`: `heap` holds the allocated collections (of either recognized
variant) in allocation order and `valuePtr` is the index `l.Value` points
at; a dangling index dereferences to `Value.other`. -/
structure ListReqState where
  heap : List Value
  valuePtr : Nat
deriving DecidableEq, Repr

/-- `ListByQuery` with allocation explicit, covering both recognized
branches: it reads `*val` through `l.Value`, builds a fresh collection `res`
(`res := make(..., 0)` plus the appends), windows it, and ends with
`l.Value = &res` — a reassignment of the pointer field to the new allocation,
not a write through the old pointer; the `default` branch panics as in
`ListByQuery`. -/
def ListByQueryStep (st : ListReqState) (m : Query) (offset limit : Nat) :
    Except String ListReqState :=
  match st.heap.getD st.valuePtr Value.other with
  | .roles val =>
    let res := Value.roles (window (filterRoles m val) limit offset)
    Except.ok { heap := st.heap ++ [res], valuePtr := st.heap.length }
  | .policies val =>
    let res := Value.policies (window (filterPolicies m val) limit offset)
    Except.ok { heap := st.heap ++ [res], valuePtr := st.heap.length }
  | .other =>
    Except.error "storage:unable to cast list request to a known type!"

/-- The generic handler's response actions: `h.h.WriteError`, `h.h.Write`,
and `w.WriteHeader(http.StatusNoContent)` (204, empty body). -/
inductive Response (E V : Type) where
  | writeError : E → Response E V
  | write : V → Response E V
  | noContent : Response E V
deriving DecidableEq, Repr

/-- `GetRequest`: collection, key, and the caller-supplied destination
Value. -/
structure GetRequest (V : Type) where
  Collection : String
  Key : String
  Value : V

/-- `DeleteRequest`: collection and key. -/
structure DeleteRequest where
  Collection : String
  Key : String

/-- `UpsertRequest`: collection, key, and the value to write. -/
structure UpsertRequest (V : Type) where
  Collection : String
  Key : String
  Value : V

/-- `Handler.Get`: run the factory; on failure write the error and stop
without touching the backend; otherwise call `s.Get` (which populates the
destination), writing its error on failure and the populated Value on
success. The boolean records whether the backend was invoked. -/
def Handler.Get {E V : Type} (factory : Except E (GetRequest V))
    (backendGet : String → String → V → Except E V) : Response E V × Bool :=
  match factory with
  | .error e => (Response.writeError e, false)
  | .ok d =>
    match backendGet d.Collection d.Key d.Value with
    | .error e => (Response.writeError e, true)
    | .ok v => (Response.write v, true)

/-- `Handler.Delete`: factory, then `s.Delete`; 204 with empty body on
success. The boolean records whether the backend was invoked. -/
def Handler.Delete {E : Type} (factory : Except E DeleteRequest)
    (backendDelete : String → String → Except E Unit) : Response E Unit × Bool :=
  match factory with
  | .error e => (Response.writeError e, false)
  | .ok d =>
    match backendDelete d.Collection d.Key with
    | .error e => (Response.writeError e, true)
    | .ok _ => (Response.noContent, true)

/-- `Handler.Upsert`: factory, then `s.Upsert`; writes the request's Value on
success. The boolean records whether the backend was invoked. -/
def Handler.Upsert {E V : Type} (factory : Except E (UpsertRequest V))
    (backendUpsert : String → String → V → Except E Unit) : Response E V × Bool :=
  match factory with
  | .error e => (Response.writeError e, false)
  | .ok u =>
    match backendUpsert u.Collection u.Key u.Value with
    | .error e => (Response.writeError e, true)
    | .ok _ => (Response.write u.Value, true)

/-! ## Helper lemmas -/

/-- `Role.withMembers` on a present role keeps it iff the member dimension
passes. -/
theorem Role.withMembers_some (r : Role) (M : List String) :
    Role.withMembers (some r) M =
      if M = [] ∨ ∃ x ∈ r.Members, x ∈ M then some r else none := by
  by_cases hM : M = [] <;> by_cases h : ∃ x ∈ r.Members, x ∈ M <;>
    simp [Role.withMembers, hM, h, List.isEmpty_iff, List.any_eq_true, List.elem_iff]

/-- `Role.withIDs` on a present role keeps it iff the id dimension passes. -/
theorem Role.roleWithIDs_some (r : Role) (I : List String) :
    Role.withIDs (some r) I = if I = [] ∨ r.ID ∈ I then some r else none := by
  by_cases hI : I = [] <;> by_cases h : r.ID ∈ I <;>
    simp [Role.withIDs, hI, h, List.isEmpty_iff, List.elem_iff]

/-- `Policy.withSubjects` on a present policy keeps it iff the subject
dimension passes. -/
theorem Policy.withSubjects_some (p : Policy) (S : List String) :
    Policy.withSubjects (some p) S =
      if S = [] ∨ ∃ x ∈ p.Subjects, x ∈ S then some p else none := by
  by_cases hS : S = [] <;> by_cases h : ∃ x ∈ p.Subjects, x ∈ S <;>
    simp [Policy.withSubjects, hS, h, List.isEmpty_iff, List.any_eq_true, List.elem_iff]

/-- `Policy.withResources` on a present policy keeps it iff the resource
dimension passes. -/
theorem Policy.withResources_some (p : Policy) (R : List String) :
    Policy.withResources (some p) R =
      if R = [] ∨ ∃ x ∈ p.Resources, x ∈ R then some p else none := by
  by_cases hR : R = [] <;> by_cases h : ∃ x ∈ p.Resources, x ∈ R <;>
    simp [Policy.withResources, hR, h, List.isEmpty_iff, List.any_eq_true, List.elem_iff]

/-- `Policy.withActions` on a present policy keeps it iff the action dimension
passes. -/
theorem Policy.withActions_some (p : Policy) (A : List String) :
    Policy.withActions (some p) A =
      if A = [] ∨ ∃ x ∈ p.Actions, x ∈ A then some p else none := by
  by_cases hA : A = [] <;> by_cases h : ∃ x ∈ p.Actions, x ∈ A <;>
    simp [Policy.withActions, hA, h, List.isEmpty_iff, List.any_eq_true, List.elem_iff]

/-- `Policy.withIDs` on a present policy keeps it iff the id dimension
passes. -/
theorem Policy.policyWithIDs_some (p : Policy) (I : List String) :
    Policy.withIDs (some p) I = if I = [] ∨ p.ID ∈ I then some p else none := by
  by_cases hI : I = [] <;> by_cases h : p.ID ∈ I <;>
    simp [Policy.withIDs, hI, h, List.isEmpty_iff, List.elem_iff]

/-- The role filter chain keeps a role exactly when it passes the member
dimension and the id dimension. -/
theorem roleChain_eq (M I : List String) (r : Role) :
    Role.withIDs (Role.withMembers (some r) M) I =
      if (M = [] ∨ ∃ x ∈ r.Members, x ∈ M) ∧ (I = [] ∨ r.ID ∈ I) then some r
      else none := by
  rw [Role.withMembers_some]
  by_cases hM : M = [] ∨ ∃ x ∈ r.Members, x ∈ M
  · rw [if_pos hM, Role.roleWithIDs_some]
    by_cases hI : I = [] ∨ r.ID ∈ I
    · rw [if_pos hI, if_pos ⟨hM, hI⟩]
    · rw [if_neg hI, if_neg (fun hc => hI hc.2)]
  · rw [if_neg hM, if_neg (fun hc => hM hc.1)]
    rfl

/-- The role filter pass is a `List.filter` by the conjunction of the two
dimensions. -/
theorem filterRoles_eq_filter (m : Query) (val : Roles) :
    filterRoles m val =
      val.filter (fun r =>
        decide ((queryGet m "member" = [] ∨ ∃ x ∈ r.Members, x ∈ queryGet m "member") ∧
          (queryGet m "id" = [] ∨ r.ID ∈ queryGet m "id"))) := by
  unfold filterRoles
  induction val with
  | nil => rfl
  | cons r rest ih =>
    rw [List.filterMap_cons, List.filter_cons, roleChain_eq]
    by_cases h : (queryGet m "member" = [] ∨ ∃ x ∈ r.Members, x ∈ queryGet m "member") ∧
        (queryGet m "id" = [] ∨ r.ID ∈ queryGet m "id") <;>
      simp [h, ih]

/-- The policy filter chain keeps a policy exactly when it passes all four
dimensions. -/
theorem policyChain_eq (S R A I : List String) (p : Policy) :
    Policy.withIDs (Policy.withActions (Policy.withResources
        (Policy.withSubjects (some p) S) R) A) I =
      if (S = [] ∨ ∃ x ∈ p.Subjects, x ∈ S) ∧ (R = [] ∨ ∃ x ∈ p.Resources, x ∈ R) ∧
          (A = [] ∨ ∃ x ∈ p.Actions, x ∈ A) ∧ (I = [] ∨ p.ID ∈ I) then some p
      else none := by
  rw [Policy.withSubjects_some]
  by_cases hS : S = [] ∨ ∃ x ∈ p.Subjects, x ∈ S
  · rw [if_pos hS, Policy.withResources_some]
    by_cases hR : R = [] ∨ ∃ x ∈ p.Resources, x ∈ R
    · rw [if_pos hR, Policy.withActions_some]
      by_cases hA : A = [] ∨ ∃ x ∈ p.Actions, x ∈ A
      · rw [if_pos hA, Policy.policyWithIDs_some]
        by_cases hI : I = [] ∨ p.ID ∈ I
        · rw [if_pos hI, if_pos ⟨hS, hR, hA, hI⟩]
        · rw [if_neg hI, if_neg (fun hc => hI hc.2.2.2)]
      · rw [if_neg hA, if_neg (fun hc => hA hc.2.2.1)]
        rfl
    · rw [if_neg hR, if_neg (fun hc => hR hc.2.1)]
      rfl
  · rw [if_neg hS, if_neg (fun hc => hS hc.1)]
    rfl

/-- The policy filter pass is a `List.filter` by the conjunction of the four
dimensions. -/
theorem filterPolicies_eq_filter (m : Query) (val : Policies) :
    filterPolicies m val =
      val.filter (fun p =>
        decide ((queryGet m "subject" = [] ∨ ∃ x ∈ p.Subjects, x ∈ queryGet m "subject") ∧
          (queryGet m "resource" = [] ∨ ∃ x ∈ p.Resources, x ∈ queryGet m "resource") ∧
          (queryGet m "action" = [] ∨ ∃ x ∈ p.Actions, x ∈ queryGet m "action") ∧
          (queryGet m "id" = [] ∨ p.ID ∈ queryGet m "id"))) := by
  unfold filterPolicies
  induction val with
  | nil => rfl
  | cons p rest ih =>
    rw [List.filterMap_cons, List.filter_cons, policyChain_eq]
    by_cases h : (queryGet m "subject" = [] ∨ ∃ x ∈ p.Subjects, x ∈ queryGet m "subject") ∧
        (queryGet m "resource" = [] ∨ ∃ x ∈ p.Resources, x ∈ queryGet m "resource") ∧
        (queryGet m "action" = [] ∨ ∃ x ∈ p.Actions, x ∈ queryGet m "action") ∧
        (queryGet m "id" = [] ∨ p.ID ∈ queryGet m "id") <;>
      simp [h, ih]

/-- `pagination.Index` always yields a valid window: `start ≤ end ≤ length`. -/
theorem Index_valid (limit offset n : Nat) :
    (pagination.Index limit offset n).1 ≤ (pagination.Index limit offset n).2 ∧
    (pagination.Index limit offset n).2 ≤ n :=
  ⟨min_le_min (Nat.le_add_right offset limit) le_rfl, min_le_right _ _⟩

/-- The windowed slice realizes exactly the `[start, end)` window computed by
`pagination.Index`. -/
theorem window_length {α : Type} (l : List α) (limit offset : Nat) :
    (window l limit offset).length =
      (pagination.Index limit offset l.length).2 -
        (pagination.Index limit offset l.length).1 := by
  simp only [window, pagination.Index]
  rw [List.length_drop, List.length_take]
  congr 1
  exact Nat.min_eq_left (min_le_right _ _)

/-- When the offset is `0` and the limit covers the whole sequence, windowing
is the identity. -/
theorem window_eq_self {α : Type} (l : List α) (limit : Nat) (h : l.length ≤ limit) :
    window l limit 0 = l := by
  simp only [window, pagination.Index, Nat.zero_add, Nat.zero_min,
    Nat.min_eq_right h, List.take_length, List.drop_zero]

/-! ## Claim theorems -/

/-- C1: for every List request, the unpaginated `ListAll` fetch is used iff
`isFilter` is true, where `isFilter` is true iff at least one recognized
filter-dimension parameter is present for the collection's kind (`action`,
`subject`, `resource` for `policies`; `member` for `roles`; none otherwise,
and `id` alone never sets it); otherwise the backend-paginated
`List(limit, offset)` fetch is used. -/
theorem listAll_iff_isFilter (c : String) (q : Query) :
    (listFetchKind c q = FetchKind.listAll ↔ isFilterClaim c q = true) ∧
    (listFetchKind c q = FetchKind.listPage ↔ isFilterClaim c q = false) := by
  simp only [listFetchKind, isFilterClaim]
  by_cases hp : lastSegment c = "policies"
  · cases h1 : queryHas q "action" <;> cases h2 : queryHas q "subject" <;>
      cases h3 : queryHas q "resource" <;> simp [hp]
  · by_cases hr : lastSegment c = "roles"
    · cases h4 : queryHas q "member" <;> simp [hp, hr]
    · simp [hp, hr]

/-- C2: for every query and input sequence of roles, the filtered result of
the roles filtering pass preserves the input order (it is a sublist), and it
contains a role iff the role is in the input and (the member filter is empty
or the role's Members intersect it) and (the id filter is empty or the role's
ID is in it). -/
theorem filterRoles_mem_and_order (m : Query) (rs : Roles) :
    List.Sublist (filterRoles m rs) rs ∧
    ∀ r : Role, r ∈ filterRoles m rs ↔ r ∈ rs ∧
      (queryGet m "member" = [] ∨ ∃ x ∈ r.Members, x ∈ queryGet m "member") ∧
      (queryGet m "id" = [] ∨ r.ID ∈ queryGet m "id") := by
  constructor
  · rw [filterRoles_eq_filter]
    exact List.filter_sublist _
  · intro r
    rw [filterRoles_eq_filter, List.mem_filter]
    simp

/-- C3: for every query and input sequence of policies, a policy is retained
by the policies filtering pass iff it is in the input and passes every
non-empty supplied dimension (logical AND across subject, resource, action
and id); an absent or empty dimension never excludes a policy. -/
theorem filterPolicies_mem (m : Query) (ps : Policies) :
    ∀ p : Policy, p ∈ filterPolicies m ps ↔ p ∈ ps ∧
      (queryGet m "subject" = [] ∨ ∃ x ∈ p.Subjects, x ∈ queryGet m "subject") ∧
      (queryGet m "resource" = [] ∨ ∃ x ∈ p.Resources, x ∈ queryGet m "resource") ∧
      (queryGet m "action" = [] ∨ ∃ x ∈ p.Actions, x ∈ queryGet m "action") ∧
      (queryGet m "id" = [] ∨ p.ID ∈ queryGet m "id") := by
  intro p
  rw [filterPolicies_eq_filter, List.mem_filter]
  simp

/-- C8: for every result sequence, when the offset is `0` and the limit is at
least the sequence's length, the pagination windowing step is idempotent:
windowing twice yields the same sequence as windowing once. -/
theorem window_idem_offsetZero {α : Type} (l : List α) (limit : Nat)
    (h : l.length ≤ limit) :
    window (window l limit 0) limit 0 = window l limit 0 := by
  rw [window_eq_self l limit h, window_eq_self l limit h]

/-- C8 witness: a two-role sequence with limit `100` and offset `0`. -/
theorem window_idem_offsetZero_witness :
    ([Role.mk "r1" ["alice"], Role.mk "r2" ["bob"]] : Roles).length ≤ 100 ∧
    window (window ([Role.mk "r1" ["alice"], Role.mk "r2" ["bob"]] : Roles) 100 0) 100 0 =
      window ([Role.mk "r1" ["alice"], Role.mk "r2" ["bob"]] : Roles) 100 0 :=
  ⟨by decide,
    window_idem_offsetZero [Role.mk "r1" ["alice"], Role.mk "r2" ["bob"]] 100 (by decide)⟩

/-- C10: `ListByQuery` is total on recognized variants: `pagination.Index`
yields a window with `start ≤ end ≤ resultLength`, the re-slice of the
filtered result is in bounds (its length is exactly `end - start`), and
`ListByQuery` returns normally with a possibly empty result, for every query,
limit, offset and input — including empty collections and filters matching
nothing. -/
theorem ListByQuery_total (m : Query) (offset limit : Nat) (rs : Roles) (ps : Policies) :
    ((pagination.Index limit offset (filterRoles m rs).length).1 ≤
        (pagination.Index limit offset (filterRoles m rs).length).2 ∧
      (pagination.Index limit offset (filterRoles m rs).length).2 ≤
        (filterRoles m rs).length ∧
      ListByQuery (Value.roles rs) m offset limit =
        Except.ok (Value.roles (window (filterRoles m rs) limit offset)) ∧
      (window (filterRoles m rs) limit offset).length =
        (pagination.Index limit offset (filterRoles m rs).length).2 -
          (pagination.Index limit offset (filterRoles m rs).length).1) ∧
    ((pagination.Index limit offset (filterPolicies m ps).length).1 ≤
        (pagination.Index limit offset (filterPolicies m ps).length).2 ∧
      (pagination.Index limit offset (filterPolicies m ps).length).2 ≤
        (filterPolicies m ps).length ∧
      ListByQuery (Value.policies ps) m offset limit =
        Except.ok (Value.policies (window (filterPolicies m ps) limit offset)) ∧
      (window (filterPolicies m ps) limit offset).length =
        (pagination.Index limit offset (filterPolicies m ps).length).2 -
          (pagination.Index limit offset (filterPolicies m ps).length).1) :=
  ⟨⟨(Index_valid _ _ _).1, (Index_valid _ _ _).2, rfl, window_length _ _ _⟩,
    ⟨(Index_valid _ _ _).1, (Index_valid _ _ _).2, rfl, window_length _ _ _⟩⟩

/-- C4: whenever the bound filter routine is `ListByQuery` and the Value is a
Roles or Policies sequence, the filtered result is windowed with
`pagination.Index(limit, offset, resultLength)` and re-sliced,
unconditionally — in particular also on the non-filter path, where the
backend page fetch already received the same `(limit, offset)`. -/
theorem windowed_unconditionally (q : Query) (offset limit : Nat) (rs : Roles)
    (ps : Policies) (c : String) (b : Backend)
    (hpath : listFetchKind c q = FetchKind.listPage)
    (hpage : b.list limit offset = Value.roles rs) :
    ListByQuery (Value.roles rs) q offset limit =
      Except.ok (Value.roles (window (filterRoles q rs) limit offset)) ∧
    ListByQuery (Value.policies ps) q offset limit =
      Except.ok (Value.policies (window (filterPolicies q ps) limit offset)) ∧
    handlerListValue c q limit offset b (some ListByQuery) =
      Except.ok (Value.roles (window (filterRoles q rs) limit offset)) := by
  refine ⟨rfl, rfl, ?_⟩
  simp only [handlerListValue, fetchedValue, hpath, hpage]
  rfl

/-- C4 witness: collection `x/roles` with only an `id` query parameter takes
the backend-paginated path, and the page is still filtered and windowed. -/
theorem windowed_unconditionally_witness :
    listFetchKind "x/roles" [("id", ["r9"])] = FetchKind.listPage ∧
    handlerListValue "x/roles" [("id", ["r9"])] 100 0
        (Backend.mk Value.other (fun _ _ => Value.roles [Role.mk "r1" ["alice"]]))
        (some ListByQuery) =
      Except.ok (Value.roles
        (window (filterRoles [("id", ["r9"])] [Role.mk "r1" ["alice"]]) 100 0)) :=
  ⟨by decide,
    (windowed_unconditionally [("id", ["r9"])] 0 100 [Role.mk "r1" ["alice"]] []
      "x/roles" (Backend.mk Value.other (fun _ _ => Value.roles [Role.mk "r1" ["alice"]]))
      (by decide) rfl).2.2⟩

/-- C9: on every successful List fetch — any collection name — the bound
FilterFunc is applied to the fetched Value before it is written: a nil
FilterFunc writes the backend-fetched Value unchanged, and a bound
`ListByQuery` dispatches on the dynamic variant of the Value, so a
Roles-typed Value under any collection name still receives member/id
filtering and windowing. -/
theorem filter_applied_before_write (c : String) (q : Query) (limit offset : Nat)
    (b : Backend) :
    handlerListValue c q limit offset b none = Except.ok (fetchedValue c q limit offset b) ∧
    ∀ rs : Roles, fetchedValue c q limit offset b = Value.roles rs →
      handlerListValue c q limit offset b (some ListByQuery) =
        Except.ok (Value.roles (window (filterRoles q rs) limit offset)) := by
  refine ⟨rfl, fun rs h => ?_⟩
  simp only [handlerListValue, h]
  rfl

/-- C9 witness: a Roles-typed Value fetched for collection name `widgets`
(neither `roles` nor `policies`) is still filtered by member and windowed. -/
theorem filter_applied_before_write_witness :
    handlerListValue "widgets" [("member", ["alice"])] 100 0
        (Backend.mk Value.other (fun _ _ =>
          Value.roles [Role.mk "r1" ["alice"], Role.mk "r2" ["bob"]]))
        (some ListByQuery) =
      Except.ok (Value.roles (window
        (filterRoles [("member", ["alice"])]
          [Role.mk "r1" ["alice"], Role.mk "r2" ["bob"]]) 100 0)) :=
  (filter_applied_before_write "widgets" [("member", ["alice"])] 100 0
    (Backend.mk Value.other (fun _ _ =>
      Value.roles [Role.mk "r1" ["alice"], Role.mk "r2" ["bob"]]))).2
    [Role.mk "r1" ["alice"], Role.mk "r2" ["bob"]] rfl

/-- C5: invoking `ListByQuery` on a Value of an unrecognized variant aborts
with the fatal error (the embedded Go panic); it never returns normally with
a result sequence. -/
theorem ListByQuery_other_aborts (m : Query) (offset limit : Nat) :
    ListByQuery Value.other m offset limit =
      Except.error "storage:unable to cast list request to a known type!" := by
  rfl

/-- C6 counterexample: with a heap holding one two-role collection at address
0 and a `member=alice` query matching only the first role, the filter pass
ends in the explicit state whose address 0 — the collection object `l.Value`
referenced before filtering — still holds both roles, not the filtered,
windowed result `[r1]`. -/
theorem ListByQueryStep_not_in_place :
    ListByQueryStep
        (ListReqState.mk [Value.roles [Role.mk "r1" ["alice"], Role.mk "r2" ["bob"]]] 0)
        [("member", ["alice"])] 0 100 =
      Except.ok (ListReqState.mk
        [Value.roles [Role.mk "r1" ["alice"], Role.mk "r2" ["bob"]],
          Value.roles [Role.mk "r1" ["alice"]]] 1) ∧
    ([Value.roles [Role.mk "r1" ["alice"], Role.mk "r2" ["bob"]],
        Value.roles [Role.mk "r1" ["alice"]]] : List Value).getD 0 Value.other =
      Value.roles [Role.mk "r1" ["alice"], Role.mk "r2" ["bob"]] ∧
    window (filterRoles [("member", ["alice"])]
        [Role.mk "r1" ["alice"], Role.mk "r2" ["bob"]]) 100 0 =
      [Role.mk "r1" ["alice"]] ∧
    decide ((Value.roles [Role.mk "r1" ["alice"], Role.mk "r2" ["bob"]] : Value) =
      Value.roles [Role.mk "r1" ["alice"]]) = false := by
  refine ⟨rfl, by decide, by decide, by decide⟩

/-- C6 amended: on every List request of either recognized variant, filtering
does not mutate the referenced collection in place; it redirects the `Value`
reference to a newly allocated collection holding the filtered, windowed
result, at a fresh address, leaving every previously allocated collection —
including the one `Value` referenced before — unchanged. -/
theorem ListByQueryStep_reallocates (st : ListReqState) (m : Query)
    (offset limit : Nat) :
    (∀ rs : Roles, st.heap.getD st.valuePtr Value.other = Value.roles rs →
      ListByQueryStep st m offset limit = Except.ok (ListReqState.mk
          (st.heap ++ [Value.roles (window (filterRoles m rs) limit offset)])
          st.heap.length) ∧
      (st.heap ++ [Value.roles (window (filterRoles m rs) limit offset)]).getD
          st.heap.length Value.other =
        Value.roles (window (filterRoles m rs) limit offset) ∧
      (st.heap ++ [Value.roles (window (filterRoles m rs) limit offset)]).take
          st.heap.length = st.heap) ∧
    (∀ ps : Policies, st.heap.getD st.valuePtr Value.other = Value.policies ps →
      ListByQueryStep st m offset limit = Except.ok (ListReqState.mk
          (st.heap ++ [Value.policies (window (filterPolicies m ps) limit offset)])
          st.heap.length) ∧
      (st.heap ++ [Value.policies (window (filterPolicies m ps) limit offset)]).getD
          st.heap.length Value.other =
        Value.policies (window (filterPolicies m ps) limit offset) ∧
      (st.heap ++ [Value.policies (window (filterPolicies m ps) limit offset)]).take
          st.heap.length = st.heap) := by
  constructor
  · intro rs h
    refine ⟨?_, ?_, List.take_left st.heap _⟩
    · simp only [ListByQueryStep, h]
    · rw [List.getD_eq_getElem?_getD, List.getElem?_concat_length]
      rfl
  · intro ps h
    refine ⟨?_, ?_, List.take_left st.heap _⟩
    · simp only [ListByQueryStep, h]
    · rw [List.getD_eq_getElem?_getD, List.getElem?_concat_length]
      rfl

/-- C6 amended witness: concrete reallocation on both recognized variants — a
roles heap under a `member` filter and a policies heap under an `action`
filter. -/
theorem ListByQueryStep_reallocates_witness :
    ListByQueryStep
        (ListReqState.mk [Value.roles [Role.mk "r1" ["alice"], Role.mk "r2" ["bob"]]] 0)
        [("member", ["alice"])] 0 100 =
      Except.ok (ListReqState.mk
        ([Value.roles [Role.mk "r1" ["alice"], Role.mk "r2" ["bob"]]] ++
          [Value.roles (window (filterRoles [("member", ["alice"])]
            [Role.mk "r1" ["alice"], Role.mk "r2" ["bob"]]) 100 0)]) 1) ∧
    ListByQueryStep
        (ListReqState.mk [Value.policies [Policy.mk "p1" ["s1"] ["res1"] ["read"]]] 0)
        [("action", ["write"])] 0 100 =
      Except.ok (ListReqState.mk
        ([Value.policies [Policy.mk "p1" ["s1"] ["res1"] ["read"]]] ++
          [Value.policies (window (filterPolicies [("action", ["write"])]
            [Policy.mk "p1" ["s1"] ["res1"] ["read"]]) 100 0)]) 1) :=
  ⟨((ListByQueryStep_reallocates
      (ListReqState.mk [Value.roles [Role.mk "r1" ["alice"], Role.mk "r2" ["bob"]]] 0)
      [("member", ["alice"])] 0 100).1
      [Role.mk "r1" ["alice"], Role.mk "r2" ["bob"]] rfl).1,
    ((ListByQueryStep_reallocates
      (ListReqState.mk [Value.policies [Policy.mk "p1" ["s1"] ["res1"] ["read"]]] 0)
      [("action", ["write"])] 0 100).2
      [Policy.mk "p1" ["s1"] ["res1"] ["read"]] rfl).1⟩

/-- C7: for each of Get, Delete and Upsert: a factory failure surfaces the
error without invoking the backend; a backend failure surfaces the error with
no success response; on success Get writes the populated Value, Upsert writes
the written Value, and Delete reports no content. -/
theorem handlers_shortcircuit (E V : Type)
    (bg : String → String → V → Except E V)
    (bd : String → String → Except E Unit)
    (bu : String → String → V → Except E Unit) :
    (∀ e : E, Handler.Get (Except.error e) bg = (Response.writeError e, false)) ∧
    (∀ (d : GetRequest V) (e : E), bg d.Collection d.Key d.Value = Except.error e →
      Handler.Get (Except.ok d) bg = (Response.writeError e, true)) ∧
    (∀ (d : GetRequest V) (v : V), bg d.Collection d.Key d.Value = Except.ok v →
      Handler.Get (Except.ok d) bg = (Response.write v, true)) ∧
    (∀ e : E, Handler.Delete (Except.error e) bd = (Response.writeError e, false)) ∧
    (∀ (d : DeleteRequest) (e : E), bd d.Collection d.Key = Except.error e →
      Handler.Delete (Except.ok d) bd = (Response.writeError e, true)) ∧
    (∀ d : DeleteRequest, bd d.Collection d.Key = Except.ok () →
      Handler.Delete (Except.ok d) bd = (Response.noContent, true)) ∧
    (∀ e : E, Handler.Upsert (V := V) (Except.error e) bu = (Response.writeError e, false)) ∧
    (∀ (u : UpsertRequest V) (e : E), bu u.Collection u.Key u.Value = Except.error e →
      Handler.Upsert (Except.ok u) bu = (Response.writeError e, true)) ∧
    (∀ u : UpsertRequest V, bu u.Collection u.Key u.Value = Except.ok () →
      Handler.Upsert (Except.ok u) bu = (Response.write u.Value, true)) := by
  refine ⟨fun e => rfl, fun d e h => ?_, fun d v h => ?_, fun e => rfl,
    fun d e h => ?_, fun d h => ?_, fun e => rfl, fun u e h => ?_, fun u h => ?_⟩ <;>
    simp [Handler.Get, Handler.Delete, Handler.Upsert, h]

/-- C7 witness: concrete factory and backend outcomes for all three
operations. -/
theorem handlers_shortcircuit_witness :
    Handler.Get (Except.error "boom")
        (fun _ _ v => (Except.ok v : Except String Nat)) = (Response.writeError "boom", false) ∧
    Handler.Get (Except.ok (GetRequest.mk "c" "k" 5))
        (fun _ _ v => (Except.ok v : Except String Nat)) = (Response.write 5, true) ∧
    Handler.Delete (Except.ok (DeleteRequest.mk "c" "k"))
        (fun _ _ => (Except.ok () : Except String Unit)) = (Response.noContent, true) ∧
    Handler.Upsert (V := Nat) (Except.ok (UpsertRequest.mk "c" "k" 7))
        (fun _ _ _ => (Except.ok () : Except String Unit)) = (Response.write 7, true) :=
  ⟨(handlers_shortcircuit String Nat (fun _ _ v => Except.ok v)
      (fun _ _ => Except.ok ()) (fun _ _ _ => Except.ok ())).1 "boom",
    (handlers_shortcircuit String Nat (fun _ _ v => Except.ok v)
      (fun _ _ => Except.ok ()) (fun _ _ _ => Except.ok ())).2.2.1
      (GetRequest.mk "c" "k" 5) 5 rfl,
    (handlers_shortcircuit String Nat (fun _ _ v => Except.ok v)
      (fun _ _ => Except.ok ()) (fun _ _ _ => Except.ok ())).2.2.2.2.2.1
      (DeleteRequest.mk "c" "k") rfl,
    (handlers_shortcircuit String Nat (fun _ _ v => Except.ok v)
      (fun _ _ => Except.ok ()) (fun _ _ _ => Except.ok ())).2.2.2.2.2.2.2.2
      (UpsertRequest.mk "c" "k" 7) rfl⟩

end Storage
